import Mathlib

/-!
Verification of the task-graph / scheduling core of the stalker repository
(src/stalker/models/task.py) against its natural-language specification.

The Python code is shallowly embedded: task identities are natural numbers,
adjacency of the `depends` and `children` relations is a function
`Nat → List Nat`, datetimes and timedeltas are integers counting microseconds
(Python 2 `timedelta` arithmetic is exact integer arithmetic on microseconds,
and `timedelta.__div__` by an int is floor division on microseconds), and the
recursive graph walk `_check_circular_dependency` — which has no visited set
and no structural termination argument in Python — is given an explicit fuel
parameter: a result of `none` means the recursion has not finished within the
given fuel, so a proof that the result is `none` for every fuel is a proof of
divergence.
-/

namespace Stalker

/-! ## The cycle-detection walk (`_check_circular_dependency`, task.py lines 893-906)

```python
def _check_circular_dependency(task, check_for_task, attr_name):
    for dependent_task in getattr(task, attr_name):
        if dependent_task is check_for_task:
            raise CircularDependencyError(...)
        else:
            _check_circular_dependency(dependent_task, check_for_task, attr_name)
```

`Except.error ()` models the raised `CircularDependencyError`, `Except.ok ()`
a normal return.  `adj` is the traversed relation (`depends` or `children`).
-/

mutual

def check_circular_dependency (fuel : Nat) (adj : Nat → List Nat)
    (task check_for_task : Nat) : Option (Except Unit Unit) :=
  match fuel with
  | 0 => none
  | f + 1 => checkDeps f adj (adj task) check_for_task

def checkDeps (fuel : Nat) (adj : Nat → List Nat)
    (l : List Nat) (check_for_task : Nat) : Option (Except Unit Unit) :=
  match l with
  | [] => some (Except.ok ())
  | d :: rest =>
    if d = check_for_task then some (Except.error ())
    else
      match check_circular_dependency fuel adj d check_for_task with
      | none => none
      | some (Except.error _) => some (Except.error ())
      | some (Except.ok _) => checkDeps fuel adj rest check_for_task

end

theorem check_zero (adj : Nat → List Nat) (t c : Nat) :
    check_circular_dependency 0 adj t c = none := by
  simp [check_circular_dependency]

theorem check_succ (f : Nat) (adj : Nat → List Nat) (t c : Nat) :
    check_circular_dependency (f + 1) adj t c = checkDeps f adj (adj t) c := by
  simp [check_circular_dependency]

/-- `Reaches adj t c` : `c` is reachable from `t` by following one or more
`adj` edges (the transitive closure of the edge relation). -/
inductive Reaches (adj : Nat → List Nat) : Nat → Nat → Prop where
  | head : ∀ {t d : Nat}, d ∈ adj t → Reaches adj t d
  | step : ∀ {t d c : Nat}, d ∈ adj t → Reaches adj d c → Reaches adj t c

theorem reaches_unfold {adj : Nat → List Nat} {t c : Nat} :
    Reaches adj t c ↔ ∃ d ∈ adj t, d = c ∨ Reaches adj d c := by
  constructor
  · intro h
    cases h with
    | head hm => exact ⟨_, hm, Or.inl rfl⟩
    | step hm hr => exact ⟨_, hm, Or.inr hr⟩
  · rintro ⟨d, hm, hd | hr⟩
    · exact hd ▸ Reaches.head hm
    · exact Reaches.step hm hr

/-- When no element of `l` is the target and none reaches the target, and the
recursive calls on the elements all return `ok`, the loop returns `ok`. -/
theorem checkDeps_ok (fuel : Nat) (adj : Nat → List Nat) (c : Nat) :
    ∀ l : List Nat,
      (∀ d ∈ l, d ≠ c ∧
        check_circular_dependency fuel adj d c = some (Except.ok ())) →
      checkDeps fuel adj l c = some (Except.ok ()) := by
  intro l
  induction l with
  | nil => intro _; simp [checkDeps]
  | cons d rest ih =>
    intro h
    have hd := h d (by simp)
    simp only [checkDeps, if_neg hd.1, hd.2]
    exact ih fun x hx => h x (by simp [hx])

/-- When some element of `l` is the target or reaches it, and every recursive
call on an element of `l` is decided (errors exactly on reaching elements),
the loop returns `error`. -/
theorem checkDeps_error (fuel : Nat) (adj : Nat → List Nat) (c : Nat) :
    ∀ l : List Nat,
      (∀ d ∈ l, (Reaches adj d c →
          check_circular_dependency fuel adj d c = some (Except.error ())) ∧
        (¬ Reaches adj d c →
          check_circular_dependency fuel adj d c = some (Except.ok ()))) →
      (∃ d ∈ l, d = c ∨ Reaches adj d c) →
      checkDeps fuel adj l c = some (Except.error ()) := by
  intro l
  induction l with
  | nil => rintro _ ⟨d, hd, _⟩; cases hd
  | cons d rest ih =>
    rintro h ⟨w, hw, hwc⟩
    by_cases hdc : d = c
    · simp [checkDeps, hdc]
    · simp only [checkDeps, if_neg hdc]
      by_cases hr : Reaches adj d c
      · rw [(h d (by simp)).1 hr]
      · rw [(h d (by simp)).2 hr]
        rcases List.mem_cons.mp hw with rfl | hw2
        · rcases hwc with rfl | hrr
          · exact absurd rfl hdc
          · exact absurd hrr hr
        · exact ih (fun x hx => h x (by simp [hx])) ⟨w, hw2, hwc⟩

/-- On an acyclic relation (witnessed by a rank function strictly decreasing
along edges), the walk with enough fuel returns `error` exactly when the
target is reachable from the start, and `ok` otherwise. -/
theorem check_circular_dependency_spec (adj : Nat → List Nat) (rank : Nat → Nat)
    (hr : ∀ t d, d ∈ adj t → rank d < rank t) (c : Nat) :
    ∀ fuel t, rank t < fuel →
      (Reaches adj t c →
        check_circular_dependency fuel adj t c = some (Except.error ())) ∧
      (¬ Reaches adj t c →
        check_circular_dependency fuel adj t c = some (Except.ok ())) := by
  intro fuel
  induction fuel with
  | zero => intro t ht; exact absurd ht (Nat.not_lt_zero _)
  | succ f ih =>
    intro t ht
    have hel : ∀ d ∈ adj t, rank d < f := fun d hd =>
      Nat.lt_of_lt_of_le (hr t d hd) (Nat.lt_succ_iff.mp ht)
    constructor
    · intro hreach
      rw [check_succ]
      exact checkDeps_error f adj c (adj t)
        (fun d hd => ih d (hel d hd))
        (reaches_unfold.mp hreach)
    · intro hnreach
      rw [check_succ]
      refine checkDeps_ok f adj c (adj t) (fun d hd => ⟨?_, ?_⟩)
      · rintro rfl; exact hnreach (Reaches.head hd)
      · refine (ih d (hel d hd)).2 ?_
        intro hr2; exact hnreach (Reaches.step hd hr2)

/-- On an acyclic relation the walk completes (no fuel exhaustion) once the
fuel exceeds the rank of the start node. -/
theorem check_circular_dependency_total (adj : Nat → List Nat) (rank : Nat → Nat)
    (hr : ∀ t d, d ∈ adj t → rank d < rank t) (t c fuel : Nat)
    (hf : rank t < fuel) :
    (check_circular_dependency fuel adj t c).isSome := by
  rcases Classical.em (Reaches adj t c) with h | h
  · rw [(check_circular_dependency_spec adj rank hr c fuel t hf).1 h]; rfl
  · rw [(check_circular_dependency_spec adj rank hr c fuel t hf).2 h]; rfl

/-- The walk never finishes: for every fuel bound the computation is still
running.  This is how divergence of the Python recursion is expressed in the
fuel-indexed embedding. -/
def checkNeverFinishes (adj : Nat → List Nat) (t c : Nat) : Prop :=
  ∀ fuel, check_circular_dependency fuel adj t c = none

/-- A one-node graph whose only task depends on itself. -/
def selfLoopAdj : Nat → List Nat := fun t => if t = 0 then [0] else []

theorem checkDeps_nil (f : Nat) (adj : Nat → List Nat) (c : Nat) :
    checkDeps f adj [] c = some (Except.ok ()) := by
  simp [checkDeps]

theorem selfLoop_diverges_aux : checkNeverFinishes selfLoopAdj 0 1 := by
  intro fuel
  induction fuel with
  | zero => exact check_zero _ _ _
  | succ f ih =>
    rw [check_succ]
    have h0 : selfLoopAdj 0 = [0] := rfl
    rw [h0]
    simp only [checkDeps, if_neg (by decide : ¬ (0 = 1)), ih]

/-! ## Structural mutations: adding a dependency, reparenting

`Task._validate_depends` (lines 500-511) runs on each element appended to
`task.depends`, before the element enters the collection:

```python
@validates("depends")
def _validate_depends(self, key, depends):
    if not isinstance(depends, Task): raise TypeError(...)
    _check_circular_dependency(depends, self, 'depends')
    return depends
```

`Task._validate_parent` (lines 592-607) runs on assignment of `task.parent`:

```python
@validates('parent')
def _validate_parent(self, key, parent):
    if parent is not None:
        if not isinstance(parent, Task): raise TypeError(...)
        _check_circular_dependency(self, parent, 'children')
    return parent
```

Both walks start at the *candidate* node and look for the *current* node among
the nodes produced by the iteration; the start node itself is never compared
against the target.  The result pair is (relation after the call, success):
on `CircularDependencyError` the exception propagates before any mutation, so
the relation is returned unchanged and success is `false`.
-/

/-- The list update performed by a successful `task.depends.append(dep)`. -/
def appendDep (g : Nat → List Nat) (task dep : Nat) : Nat → List Nat :=
  fun x => if x = task then g x ++ [dep] else g x

/-- `task.depends.append(dep)` routed through `Task._validate_depends`. -/
def addDependency (g : Nat → List Nat) (task dep fuel : Nat) :
    Option ((Nat → List Nat) × Bool) :=
  match check_circular_dependency fuel g dep task with
  | none => none
  | some (Except.error _) => some (g, false)
  | some (Except.ok _) => some (appendDep g task dep, true)

/-- The children-map update performed by a successful `task.parent = np`
(the SQLAlchemy backref removes `task` from its former parent's children and
appends it to `np`'s children). -/
def updateChildren (ch : Nat → List Nat) (task np : Nat) : Nat → List Nat :=
  fun x =>
    if x = np then (ch x).filter (fun y => y != task) ++ [task]
    else (ch x).filter (fun y => y != task)

/-- `task.parent = np` routed through `Task._validate_parent`, traversing the
`children` relation `ch`. -/
def setParent (ch : Nat → List Nat) (task np fuel : Nat) :
    Option ((Nat → List Nat) × Bool) :=
  match check_circular_dependency fuel ch task np with
  | none => none
  | some (Except.error _) => some (ch, false)
  | some (Except.ok _) => some (updateChildren ch task np, true)

/-- A universe with no edges at all. -/
def noEdges : Nat → List Nat := fun _ => []

/-- A two-node chain: node 0 has the single edge to node 1. -/
def chainAdj : Nat → List Nat := fun t => if t = 0 then [1] else []

/-- A rank function certifying that `chainAdj` is acyclic. -/
def chainRank : Nat → Nat := fun t => if t = 0 then 1 else 0

theorem chainAdj_acyclic : ∀ t d, d ∈ chainAdj t → chainRank d < chainRank t := by
  intro t d hd
  by_cases ht : t = 0
  · subst ht
    have h1 : chainAdj 0 = [1] := rfl
    rw [h1] at hd
    simp only [List.mem_singleton] at hd
    subst hd
    decide
  · simp [chainAdj, ht] at hd

/-- Claim C1: the code contradicts the claim (and its own docstring,
"A Task can not depend to itself ... or a CircularDependency error will be
raised").  A task with an empty depends list may be appended to its own
depends collection: `_check_circular_dependency(depends, self, 'depends')`
starts the walk at the candidate and never compares the start node itself
against the target, so with no pre-existing edges nothing is flagged, the
append succeeds, and afterwards the task reaches itself through a `depends`
edge — invariant I2 is broken by a single dependency addition. -/
theorem c1_self_dependency_recorded :
    addDependency noEdges 0 0 1 = some (appendDep noEdges 0 0, true) ∧
    appendDep noEdges 0 0 0 = [0] ∧
    Reaches (appendDep noEdges 0 0) 0 0 := by
  have h1 : check_circular_dependency 1 noEdges 0 0 = some (Except.ok ()) := by
    rw [check_succ]
    exact checkDeps_nil 0 noEdges 0
  refine ⟨?_, rfl, Reaches.head (by simp [appendDep, noEdges])⟩
  simp only [addDependency, h1]

/-- Claim C2 counterexample: the degenerate reparenting `A.parent = A` is
accepted, not rejected.  `_check_circular_dependency(self, parent, 'children')`
walks the descendants of `A` looking for `A`'s candidate parent; on a childless
task the walk sees nothing, so the self-assignment succeeds and makes the task
its own child. -/
theorem c2_self_parent_accepted :
    setParent noEdges 0 0 1 = some (updateChildren noEdges 0 0, true) ∧
    updateChildren noEdges 0 0 0 = [0] := by
  have h1 : check_circular_dependency 1 noEdges 0 0 = some (Except.ok ()) := by
    rw [check_succ]
    exact checkDeps_nil 0 noEdges 0
  refine ⟨?_, rfl⟩
  simp only [setParent, h1]

/-- Claim C2 (amended): for all tasks A and B where A is a *strict* ancestor
of B in the parent tree (B is reachable from A through one or more `children`
edges), reparenting A under B raises CircularDependencyError and leaves the
parent/child tree exactly as it was before the call; the degenerate
self-parent assignment `A.parent = A` is not detected and succeeds.  The
acyclicity of the current tree is witnessed by a rank function and the fuel
bound makes the Python recursion complete. -/
theorem c2_reparent_under_descendant_rejected (ch : Nat → List Nat)
    (rank : Nat → Nat) (hr : ∀ t d, d ∈ ch t → rank d < rank t)
    (a b fuel : Nat) (hreach : Reaches ch a b) (hf : rank a < fuel) :
    setParent ch a b fuel = some (ch, false) := by
  have h := (check_circular_dependency_spec ch rank hr b fuel a hf).1 hreach
  simp only [setParent, h]

/-- Witness instantiating the amended C2 theorem on the concrete two-node
chain 0 → 1. -/
theorem c2_witness :
    setParent chainAdj 0 1 2 = some (chainAdj, false) :=
  c2_reparent_under_descendant_rejected chainAdj chainRank chainAdj_acyclic
    0 1 2 (Reaches.head (by simp [chainAdj])) (by decide)

/-- Claim C8 counterexample: on an input where the traversed relation already
contains a cycle that does not pass through the searched-for task, the
depth-first walk never finishes, for any fuel bound — the Python function has
no visited set, so it recurses forever on the self-loop. -/
theorem c8_cyclic_input_diverges : checkNeverFinishes selfLoopAdj 0 1 :=
  selfLoop_diverges_aux

/-- Claim C8 (amended): the cycle-detection walk terminates on every input
whose traversed relation is acyclic (here witnessed by a rank function
strictly decreasing along edges, with fuel exceeding the start node's rank);
on an already-cyclic input it can fail to terminate, so termination rests on
cycles being rejected at insertion time. -/
theorem c8_walk_terminates_on_acyclic (adj : Nat → List Nat) (rank : Nat → Nat)
    (hr : ∀ t d, d ∈ adj t → rank d < rank t) (t c fuel : Nat)
    (hf : rank t < fuel) :
    (check_circular_dependency fuel adj t c).isSome :=
  check_circular_dependency_total adj rank hr t c fuel hf

/-- Witness instantiating the amended C8 theorem on the concrete two-node
chain. -/
theorem c8_witness : (check_circular_dependency 2 chainAdj 0 5).isSome :=
  c8_walk_terminates_on_acyclic chainAdj chainRank chainAdj_acyclic 0 5 2
    (by decide)

/-! ## Leaf-task scheduling state: effort, duration, resources

Times are integers counting microseconds.  Python 2 `timedelta * int` is exact
integer multiplication of total microseconds and `timedelta / int`
(`timedelta.__div__`) is floor division of total microseconds, embedded as
`Int.fdiv`.

The two setters (task.py lines 536-546 and 741-766) are mutually recursive:

```python
def _effort_setter(self, effort_in):
    self._effort = self._validate_effort(effort_in)
    num_of_resources = len(self.resources)
    if num_of_resources == 0: num_of_resources = 1
    self.duration = self._effort / num_of_resources

def _duration_setter(self, duration):
    if duration is not None and isinstance(duration, datetime.timedelta):
        self._validate_dates(self.start, None, duration)
    else:
        self._validate_dates(self.start, self.end, duration)
    num_of_resources = len(self.resources)
    if num_of_resources == 0: num_of_resources = 1
    new_effort_value = self.duration * num_of_resources
    if self.effort != new_effort_value:   # break recursion
        self.effort = new_effort_value
```

The recursion carries an explicit fuel parameter; fuel 0 freezes the state.
The input `Option Int` is `some v` for a genuine `datetime.timedelta` argument
and `none` for `None` or any non-timedelta value (`_validate_effort` coerces
those to `None`; `_validate_dates` treats them as an absent duration).

Modelled from the spec: `ScheduleMixin._validate_dates` is not part of the
sources, only its call sites are.  Per the spec it is the external
reconciliation primitive `reconcile(start, end, duration)` computing the
missing member of the triple: called as `(start, None, duration)` it stores
the given duration and sets `end = start + duration`; called as
`(start, end, None)` it stores `duration = end - start` and keeps the dates.
-/

structure LeafState where
  start_ : Int
  end_ : Int
  duration : Int
  effort : Int
  resources : List Nat

/-- `max(1, len(self.resources))` as computed inside the setters. -/
def numRes (s : LeafState) : Int := max 1 (s.resources.length : Int)

theorem numRes_ne_zero (s : LeafState) : numRes s ≠ 0 := by
  have h : (1 : Int) ≤ numRes s := le_max_left _ _
  omega

mutual

/-- `Task._effort_setter` composed with `Task._validate_effort`. -/
def effortSetF : Nat → LeafState → Option Int → LeafState
  | 0, s, _ => s
  | fuel + 1, s, e =>
    let eff : Int :=
      match e with
      | some v => v
      | none => s.duration * numRes s
    durationSetF fuel { s with effort := eff } (some (Int.fdiv eff (numRes s)))

/-- `Task._duration_setter` (with the leaf date reconciliation inlined). -/
def durationSetF : Nat → LeafState → Option Int → LeafState
  | 0, s, _ => s
  | fuel + 1, s, d =>
    let s1 : LeafState :=
      match d with
      | some v => { s with duration := v, end_ := s.start_ + v }
      | none => { s with duration := s.end_ - s.start_ }
    if s1.effort = s1.duration * numRes s1 then s1
    else effortSetF fuel s1 (some (s1.duration * numRes s1))

end

/-- Invariant I4 of the spec: `effort == duration * max(1, |resources|)`. -/
def effortInvariant (s : LeafState) : Prop :=
  s.effort = s.duration * numRes s

/-- One duration write whose implied new effort already equals the stored
effort stops immediately (the `self.effort != new_effort_value` guard). -/
theorem durationSetF_guard (f : Nat) (s : LeafState) (v : Int)
    (h : s.effort = v * numRes s) :
    durationSetF (f + 1) s (some v) =
      { s with duration := v, end_ := s.start_ + v } := by
  obtain ⟨st, en, du, ef, rs⟩ := s
  have hc : ef = v * numRes ⟨st, st + v, v, ef, rs⟩ := h
  simp only [durationSetF]
  rw [if_pos hc]

/-- Closed form of a duration write (the value the recursion stabilizes at). -/
def durationResult (s : LeafState) (d : Option Int) : LeafState :=
  let s1 : LeafState :=
    match d with
    | some v => { s with duration := v, end_ := s.start_ + v }
    | none => { s with duration := s.end_ - s.start_ }
  if s1.effort = s1.duration * numRes s1 then s1
  else { s1 with effort := s1.duration * numRes s1 }

theorem durationSetF_eq (s : LeafState) (d : Option Int) (f : Nat) :
    durationSetF (f + 3) s d = durationResult s d := by
  obtain ⟨st, en, du, ef, rs⟩ := s
  cases d with
  | some v =>
    simp only [durationSetF, durationResult]
    by_cases hg : ef = v * numRes ⟨st, st + v, v, ef, rs⟩
    · rw [if_pos hg, if_pos hg]
    · rw [if_neg hg, if_neg hg]
      simp only [effortSetF]
      have hfd : Int.fdiv (v * numRes ⟨st, st + v, v, ef, rs⟩)
          (numRes ⟨st, st + v, v, ef, rs⟩) = v :=
        Int.mul_fdiv_cancel v (numRes_ne_zero _)
      rw [hfd]
      have hstop := durationSetF_guard f
        ⟨st, st + v, v, v * numRes (⟨st, st + v, v, ef, rs⟩ : LeafState), rs⟩ v
        (by rfl)
      rw [hstop]
  | none =>
    simp only [durationSetF, durationResult]
    by_cases hg : ef = (en - st) * numRes ⟨st, en, en - st, ef, rs⟩
    · rw [if_pos hg, if_pos hg]
    · rw [if_neg hg, if_neg hg]
      simp only [effortSetF]
      have hfd : Int.fdiv ((en - st) * numRes ⟨st, en, en - st, ef, rs⟩)
          (numRes ⟨st, en, en - st, ef, rs⟩) = en - st :=
        Int.mul_fdiv_cancel _ (numRes_ne_zero _)
      rw [hfd]
      have hstop := durationSetF_guard f
        ⟨st, en, en - st,
          (en - st) * numRes (⟨st, en, en - st, ef, rs⟩ : LeafState), rs⟩
        (en - st) (by rfl)
      rw [hstop]
      have harith : st + (en - st) = en := by omega
      rw [harith]

/-- Closed form of an effort write. -/
def effortResult (s : LeafState) (e : Option Int) : LeafState :=
  let eff : Int :=
    match e with
    | some v => v
    | none => s.duration * numRes s
  durationResult { s with effort := eff } (some (Int.fdiv eff (numRes s)))

theorem effortSetF_eq (s : LeafState) (e : Option Int) (f : Nat) :
    effortSetF (f + 4) s e = effortResult s e := by
  obtain ⟨st, en, du, ef, rs⟩ := s
  cases e with
  | some v =>
    simp only [effortSetF, effortResult]
    exact durationSetF_eq ⟨st, en, du, v, rs⟩ _ f
  | none =>
    simp only [effortSetF, effortResult]
    exact durationSetF_eq ⟨st, en, du, du * numRes ⟨st, en, du, ef, rs⟩, rs⟩ _ f

theorem durationResult_invariant (s : LeafState) (d : Option Int) :
    effortInvariant (durationResult s d) := by
  obtain ⟨st, en, du, ef, rs⟩ := s
  cases d with
  | some v =>
    simp only [durationResult, effortInvariant]
    by_cases hg : ef = v * numRes ⟨st, st + v, v, ef, rs⟩
    · rw [if_pos hg]; exact hg
    · rw [if_neg hg]; rfl
  | none =>
    simp only [durationResult, effortInvariant]
    by_cases hg : ef = (en - st) * numRes ⟨st, en, en - st, ef, rs⟩
    · rw [if_pos hg]; exact hg
    · rw [if_neg hg]; rfl

theorem effortResult_invariant (s : LeafState) (e : Option Int) :
    effortInvariant (effortResult s e) :=
  durationResult_invariant _ _

theorem durationResult_duration (s : LeafState) (v : Int) :
    (durationResult s (some v)).duration = v ∧
    (durationResult s (some v)).effort = v * numRes s := by
  obtain ⟨st, en, du, ef, rs⟩ := s
  simp only [durationResult]
  by_cases hg : ef = v * numRes ⟨st, st + v, v, ef, rs⟩
  · rw [if_pos hg]; exact ⟨rfl, hg⟩
  · rw [if_neg hg]; exact ⟨rfl, rfl⟩

theorem effortResult_duration (s : LeafState) (v : Int) :
    (effortResult s (some v)).duration = Int.fdiv v (numRes s) := by
  obtain ⟨st, en, du, ef, rs⟩ := s
  simpa only [effortResult] using
    (durationResult_duration ⟨st, en, du, v, rs⟩ (Int.fdiv v _)).1

/-- Claim C4: for every leaf task, after any write to `effort` or to
`duration` (with either a genuine timedelta value or a `None`-like value),
`effort == duration * max(1, |resources|)` holds; an effort write of `v`
leaves `duration = v // n` (floor division on microseconds, with up to one
rounding correction re-run through the duration path) and a duration write of
`v` leaves `effort = v * n`; the mutual recursion stabilizes — any fuel beyond
the first few steps yields the same state, because the duration path is a
no-op on the effort once the recomputed effort equals the stored one. -/
theorem c4_effort_duration_reconciled (s : LeafState) (e d : Option Int)
    (v : Int) (f : Nat) :
    effortInvariant (effortSetF (f + 4) s e) ∧
    effortInvariant (durationSetF (f + 3) s d) ∧
    effortSetF (f + 4) s e = effortSetF 4 s e ∧
    durationSetF (f + 3) s d = durationSetF 3 s d ∧
    (effortSetF (f + 4) s (some v)).duration = Int.fdiv v (numRes s) ∧
    (durationSetF (f + 3) s (some v)).duration = v ∧
    (durationSetF (f + 3) s (some v)).effort = v * numRes s := by
  refine ⟨?_, ?_, ?_, ?_, ?_, ?_, ?_⟩
  · rw [effortSetF_eq]; exact effortResult_invariant s e
  · rw [durationSetF_eq]; exact durationResult_invariant s d
  · rw [effortSetF_eq]
    have h4 := effortSetF_eq s e 0
    simpa using h4.symm
  · rw [durationSetF_eq]
    have h3 := durationSetF_eq s d 0
    simpa using h3.symm
  · rw [effortSetF_eq]; exact effortResult_duration s v
  · rw [durationSetF_eq]; exact (durationResult_duration s v).1
  · rw [durationSetF_eq]; exact (durationResult_duration s v).2

/-! ## Resource mutations (`Task._validate_resources`, lines 710-724)

```python
@validates("resources")
def _validate_resources(self, key, resource):
    if not isinstance(resource, User): raise TypeError(...)
    return resource
```

The validator only type-checks the element; nothing recomputes duration or
effort when the resources collection changes.
-/

/-- `task.resources.append(u)` routed through `_validate_resources`. -/
def addResource (s : LeafState) (u : Nat) : LeafState :=
  { s with resources := s.resources ++ [u] }

/-- `task.resources.remove(u)` (removes the first occurrence). -/
def removeResource (s : LeafState) (u : Nat) : LeafState :=
  { s with resources := s.resources.erase u }

/-- A leaf task with one resource whose effort and duration agree. -/
def demoLeaf : LeafState :=
  { start_ := 0, end_ := 10, duration := 10, effort := 10, resources := [1] }

/-- Claim C5 counterexample: adding a resource to a leaf task does not
recompute anything.  `demoLeaf` satisfies I4 (`10 = 10 * 1`), and after
appending a second resource the stored duration and effort are untouched, so
`effort == duration * max(1, |resources|)` fails (`10 ≠ 10 * 2`). -/
theorem c5_counterexample :
    effortInvariant demoLeaf ∧
    (addResource demoLeaf 2).duration = demoLeaf.duration ∧
    (addResource demoLeaf 2).effort = demoLeaf.effort ∧
    ¬ effortInvariant (addResource demoLeaf 2) := by
  refine ⟨by unfold effortInvariant; decide, rfl, rfl, by unfold effortInvariant; decide⟩

/-- Claim C5 (amended): mutating the resources collection of a leaf task is
only type-checked; it recomputes nothing — duration, effort, start and end all
keep their previous values, only the resources list itself changes — so the
equation `effort == duration * max(1, |resources|)` is not re-established by
resource mutations (it is re-established only by the next effort or duration
write). -/
theorem c5_resource_mutation_recomputes_nothing (s : LeafState) (u : Nat) :
    (addResource s u).duration = s.duration ∧
    (addResource s u).effort = s.effort ∧
    (addResource s u).start_ = s.start_ ∧
    (addResource s u).end_ = s.end_ ∧
    (addResource s u).resources = s.resources ++ [u] ∧
    (removeResource s u).duration = s.duration ∧
    (removeResource s u).effort = s.effort ∧
    (removeResource s u).start_ = s.start_ ∧
    (removeResource s u).end_ = s.end_ ∧
    (removeResource s u).resources = s.resources.erase u := by
  refine ⟨rfl, rfl, rfl, rfl, rfl, rfl, rfl, rfl, rfl, rfl⟩

/-! ## Container tasks: derived start/end, ignored writes, resource reset

A task tree node carries its stored `_start` and `_end` (microseconds), its
resources and its children.  `Task._start_getter` (lines 784-794):

```python
def _start_getter(self):
    if self.is_container:
        self._start = datetime.datetime.max
        for child in self.children:
            if child.start < self._start:
                self._start = child.start
    return self._start
```

`child.start` is the same property recursively, so a container's start is the
minimum over the recursively computed starts of its children, the loop
accumulator starting at `datetime.max` (and symmetrically `datetime.min` for
the end).  The setters store nothing unless the task is a leaf.
-/

/-- `datetime.datetime.max` in microseconds since the epoch
(9999-12-31 23:59:59.999999; the exact value is irrelevant, it only serves as
the loop's initial accumulator, an upper bound of every representable
datetime). -/
def dtMax : Int := 253402300799999999

/-- `datetime.datetime.min` in microseconds since the epoch
(0001-01-01 00:00:00; a lower bound of every representable datetime). -/
def dtMin : Int := -62135596800000000

inductive TaskNode : Type where
  | mk : Int → Int → List Nat → List TaskNode → TaskNode

def startStored : TaskNode → Int
  | .mk s _ _ _ => s

def endStored : TaskNode → Int
  | .mk _ e _ _ => e

def resourcesOf : TaskNode → List Nat
  | .mk _ _ r _ => r

def childrenOf : TaskNode → List TaskNode
  | .mk _ _ _ ch => ch

mutual

/-- `Task._start_getter`. -/
def task_start : TaskNode → Int
  | .mk s _ _ [] => s
  | .mk _ _ _ (c :: cs) => startWalk (c :: cs) dtMax

/-- The `for child in self.children` loop of the start getter. -/
def startWalk : List TaskNode → Int → Int
  | [], acc => acc
  | c :: cs, acc => startWalk cs (if task_start c < acc then task_start c else acc)

end

mutual

/-- `Task._end_getter`. -/
def task_end : TaskNode → Int
  | .mk _ e _ [] => e
  | .mk _ _ _ (c :: cs) => endWalk (c :: cs) dtMin

/-- The `for child in self.children` loop of the end getter. -/
def endWalk : List TaskNode → Int → Int
  | [], acc => acc
  | c :: cs, acc => endWalk cs (if task_end c > acc then task_end c else acc)

end

mutual

/-- Every stored date of the tree lies within the representable datetime
range (true of every Python `datetime` by construction). -/
def boundedTask : TaskNode → Bool
  | .mk s e _ ch =>
    decide (dtMin ≤ s) && decide (s ≤ dtMax) &&
    decide (dtMin ≤ e) && decide (e ≤ dtMax) && boundedChildren ch

def boundedChildren : List TaskNode → Bool
  | [] => true
  | c :: cs => boundedTask c && boundedChildren cs

end

/-- `Task._start_setter`: a container ignores the write entirely; a leaf
stores the new value (Modelled from the spec: on a leaf the external
`_validate_dates` reconciliation keeps the supplied start; the leaf branch is
not used by any theorem below). -/
def setStart : TaskNode → Int → TaskNode
  | .mk _ e r [], v => .mk v e r []
  | t, _ => t

/-- `Task._end_setter`, symmetric to `setStart`. -/
def setEnd : TaskNode → Int → TaskNode
  | .mk s _ r [], v => .mk s v r []
  | t, _ => t

/-- `task.children.append(c)` routed through `Task._validate_children`
(lines 686-708): the validator empties the resources list and returns the
child unchanged; no other field is touched. -/
def attachChild : TaskNode → TaskNode → TaskNode
  | .mk s e _ ch, c => .mk s e [] (ch ++ [c])

/-- `task.resources.append(u)` on a tree node: `_validate_resources` only
type-checks the element, container or not. -/
def addNodeResource : TaskNode → Nat → TaskNode
  | .mk s e r ch, u => .mk s e (r ++ [u]) ch

theorem startWalk_cons (c : TaskNode) (cs : List TaskNode) (acc : Int) :
    startWalk (c :: cs) acc =
      startWalk cs (if task_start c < acc then task_start c else acc) := by
  simp [startWalk]

theorem endWalk_cons (c : TaskNode) (cs : List TaskNode) (acc : Int) :
    endWalk (c :: cs) acc =
      endWalk cs (if task_end c > acc then task_end c else acc) := by
  simp [endWalk]

theorem startWalk_le_acc : ∀ (l : List TaskNode) (acc : Int),
    startWalk l acc ≤ acc := by
  intro l
  induction l with
  | nil => intro acc; simp [startWalk]
  | cons c cs ih =>
    intro acc
    rw [startWalk_cons]
    by_cases h : task_start c < acc
    · rw [if_pos h]; exact le_of_lt (lt_of_le_of_lt (ih _) h)
    · rw [if_neg h]; exact ih acc

theorem startWalk_le : ∀ (l : List TaskNode) (acc : Int),
    ∀ c ∈ l, startWalk l acc ≤ task_start c := by
  intro l
  induction l with
  | nil => intro acc c hc; cases hc
  | cons c0 cs ih =>
    intro acc c hc
    rw [startWalk_cons]
    rcases List.mem_cons.mp hc with rfl | hmem
    · by_cases h : task_start c < acc
      · rw [if_pos h]; exact startWalk_le_acc _ _
      · rw [if_neg h]
        exact le_trans (startWalk_le_acc _ _) (not_lt.mp h)
    · exact ih _ c hmem

theorem startWalk_mem : ∀ (l : List TaskNode) (acc : Int),
    startWalk l acc = acc ∨ ∃ c ∈ l, startWalk l acc = task_start c := by
  intro l
  induction l with
  | nil => intro acc; exact Or.inl (by simp [startWalk])
  | cons c0 cs ih =>
    intro acc
    rw [startWalk_cons]
    by_cases h : task_start c0 < acc
    · rw [if_pos h]
      rcases ih (task_start c0) with he | ⟨c, hc, he⟩
      · exact Or.inr ⟨c0, by simp, he⟩
      · exact Or.inr ⟨c, by simp [hc], he⟩
    · rw [if_neg h]
      rcases ih acc with he | ⟨c, hc, he⟩
      · exact Or.inl he
      · exact Or.inr ⟨c, by simp [hc], he⟩

theorem endWalk_acc_le : ∀ (l : List TaskNode) (acc : Int),
    acc ≤ endWalk l acc := by
  intro l
  induction l with
  | nil => intro acc; simp [endWalk]
  | cons c cs ih =>
    intro acc
    rw [endWalk_cons]
    by_cases h : task_end c > acc
    · rw [if_pos h]; exact le_of_lt (lt_of_lt_of_le h (ih _))
    · rw [if_neg h]; exact ih acc

theorem endWalk_le : ∀ (l : List TaskNode) (acc : Int),
    ∀ c ∈ l, task_end c ≤ endWalk l acc := by
  intro l
  induction l with
  | nil => intro acc c hc; cases hc
  | cons c0 cs ih =>
    intro acc c hc
    rw [endWalk_cons]
    rcases List.mem_cons.mp hc with rfl | hmem
    · by_cases h : task_end c > acc
      · rw [if_pos h]; exact endWalk_acc_le _ _
      · rw [if_neg h]
        exact le_trans (not_lt.mp h) (endWalk_acc_le _ _)
    · exact ih _ c hmem

theorem endWalk_mem : ∀ (l : List TaskNode) (acc : Int),
    endWalk l acc = acc ∨ ∃ c ∈ l, endWalk l acc = task_end c := by
  intro l
  induction l with
  | nil => intro acc; exact Or.inl (by simp [endWalk])
  | cons c0 cs ih =>
    intro acc
    rw [endWalk_cons]
    by_cases h : task_end c0 > acc
    · rw [if_pos h]
      rcases ih (task_end c0) with he | ⟨c, hc, he⟩
      · exact Or.inr ⟨c0, by simp, he⟩
      · exact Or.inr ⟨c, by simp [hc], he⟩
    · rw [if_neg h]
      rcases ih acc with he | ⟨c, hc, he⟩
      · exact Or.inl he
      · exact Or.inr ⟨c, by simp [hc], he⟩

theorem boundedChildren_mem : ∀ (l : List TaskNode),
    boundedChildren l = true → ∀ c ∈ l, boundedTask c = true := by
  intro l
  induction l with
  | nil => intro _ c hc; cases hc
  | cons c0 cs ih =>
    intro h c hc
    have h2 : boundedTask c0 = true ∧ boundedChildren cs = true := by
      simpa [boundedChildren, Bool.and_eq_true] using h
    rcases List.mem_cons.mp hc with rfl | hmem
    · exact h2.1
    · exact ih h2.2 c hmem

/-- The computed start of a bounded task never exceeds `datetime.max`. -/
theorem task_start_le_dtMax (t : TaskNode) (hb : boundedTask t = true) :
    task_start t ≤ dtMax := by
  obtain ⟨s, e, r, ch⟩ := t
  cases ch with
  | nil =>
    have h2 : s ≤ dtMax := by
      simp only [boundedTask, Bool.and_eq_true, decide_eq_true_eq] at hb
      exact hb.1.1.1.2
    simpa [task_start] using h2
  | cons c0 cs =>
    show startWalk (c0 :: cs) dtMax ≤ dtMax
    exact startWalk_le_acc _ _

/-- The computed end of a bounded task is at least `datetime.min`. -/
theorem dtMin_le_task_end (t : TaskNode) (hb : boundedTask t = true) :
    dtMin ≤ task_end t := by
  obtain ⟨s, e, r, ch⟩ := t
  cases ch with
  | nil =>
    have h2 : dtMin ≤ e := by
      simp only [boundedTask, Bool.and_eq_true, decide_eq_true_eq] at hb
      exact hb.1.1.2
    simpa [task_end] using h2
  | cons c0 cs =>
    show dtMin ≤ endWalk (c0 :: cs) dtMin
    exact endWalk_acc_le _ _

/-- Claim C3 (amended): for every container task (non-empty children),
reading `start` returns the minimum of the children's (recursively computed)
`start` values and reading `end` returns the maximum of the children's `end`
values; a direct write to a container's `start` or `end` leaves the stored
node entirely unchanged; and attaching a child empties the resources list
(while only appending to the children).  The standing invariant "a container's
resources set is empty" is not maintained by the code — see the
counterexample — because `_validate_resources` never checks for children. -/
theorem c3_container_semantics (t : TaskNode) (v : Int) (c : TaskNode)
    (hch : childrenOf t ≠ []) (hb : boundedTask t = true) :
    (task_start t ∈ (childrenOf t).map task_start ∧
      ∀ x ∈ (childrenOf t).map task_start, task_start t ≤ x) ∧
    (task_end t ∈ (childrenOf t).map task_end ∧
      ∀ x ∈ (childrenOf t).map task_end, x ≤ task_end t) ∧
    setStart t v = t ∧
    setEnd t v = t ∧
    resourcesOf (attachChild t c) = [] ∧
    childrenOf (attachChild t c) = childrenOf t ++ [c] := by
  obtain ⟨s, e, r, ch⟩ := t
  cases ch with
  | nil => exact absurd rfl hch
  | cons c0 cs =>
    have hbch : boundedChildren (c0 :: cs) = true := by
      simp only [boundedTask, Bool.and_eq_true] at hb
      exact hb.2
    refine ⟨⟨?_, ?_⟩, ⟨?_, ?_⟩, rfl, rfl, rfl, rfl⟩
    · -- start is attained by some child
      show startWalk (c0 :: cs) dtMax ∈ (childrenOf (.mk s e r (c0 :: cs))).map task_start
      rcases startWalk_mem (c0 :: cs) dtMax with he | ⟨c1, hc1, he⟩
      · have h1 : startWalk (c0 :: cs) dtMax ≤ task_start c0 :=
          startWalk_le _ _ c0 (by simp)
        have h2 : task_start c0 ≤ dtMax :=
          task_start_le_dtMax c0 (boundedChildren_mem _ hbch c0 (by simp))
        have h3 : startWalk (c0 :: cs) dtMax = task_start c0 := by omega
        exact List.mem_map.mpr ⟨c0, List.mem_cons_self _ _, h3.symm⟩
      · exact List.mem_map.mpr ⟨c1, hc1, he.symm⟩
    · -- start is a lower bound of the children's starts
      intro x hx
      rcases List.mem_map.mp hx with ⟨c1, hc1, rfl⟩
      exact startWalk_le _ _ c1 hc1
    · -- end is attained by some child
      show endWalk (c0 :: cs) dtMin ∈ (childrenOf (.mk s e r (c0 :: cs))).map task_end
      rcases endWalk_mem (c0 :: cs) dtMin with he | ⟨c1, hc1, he⟩
      · have h1 : task_end c0 ≤ endWalk (c0 :: cs) dtMin :=
          endWalk_le _ _ c0 (by simp)
        have h2 : dtMin ≤ task_end c0 :=
          dtMin_le_task_end c0 (boundedChildren_mem _ hbch c0 (by simp))
        have h3 : endWalk (c0 :: cs) dtMin = task_end c0 := by omega
        exact List.mem_map.mpr ⟨c0, List.mem_cons_self _ _, h3.symm⟩
      · exact List.mem_map.mpr ⟨c1, hc1, he.symm⟩
    · -- end is an upper bound of the children's ends
      intro x hx
      rcases List.mem_map.mp hx with ⟨c1, hc1, rfl⟩
      exact endWalk_le _ _ c1 hc1

/-- A container with two leaf children (starts 5 and 3, ends 7 and 9) and a
stale stored span plus a leftover resource entry. -/
def demoContainer : TaskNode :=
  .mk 100 200 [] [.mk 5 7 [] [], .mk 3 9 [] []]

/-- Witness instantiating the amended C3 theorem on a concrete container. -/
theorem c3_witness :
    (task_start demoContainer ∈ (childrenOf demoContainer).map task_start ∧
      ∀ x ∈ (childrenOf demoContainer).map task_start, task_start demoContainer ≤ x) ∧
    (task_end demoContainer ∈ (childrenOf demoContainer).map task_end ∧
      ∀ x ∈ (childrenOf demoContainer).map task_end, x ≤ task_end demoContainer) ∧
    setStart demoContainer 42 = demoContainer ∧
    setEnd demoContainer 42 = demoContainer ∧
    resourcesOf (attachChild demoContainer (.mk 0 1 [] [])) = [] ∧
    childrenOf (attachChild demoContainer (.mk 0 1 [] [])) =
      childrenOf demoContainer ++ [.mk 0 1 [] []] :=
  c3_container_semantics demoContainer 42 (.mk 0 1 [] [])
    (List.cons_ne_nil _ _) (by decide)

/-- Claim C3 counterexample (for the conjunct "a container's resources set is
empty"): starting from a container whose resources were just cleared by a
child attachment, a direct `resources.append` is only type-checked and
succeeds, leaving a container with a non-empty resources list. -/
theorem c3_counterexample :
    childrenOf (addNodeResource (attachChild (.mk 0 10 [4] []) (.mk 1 2 [] [])) 9) ≠ [] ∧
    resourcesOf (attachChild (.mk 0 10 [4] []) (.mk 1 2 [] [])) = [] ∧
    resourcesOf (addNodeResource (attachChild (.mk 0 10 [4] []) (.mk 1 2 [] [])) 9) = [9] := by
  exact ⟨List.cons_ne_nil _ _, rfl, rfl⟩

/-! ## Booking overlap detection (`Booking._validate_resource`, lines 101-132)

```python
for booking in resource.bookings:
    if booking.start == self.start or \
       booking.end == self.end or \
       (self.end > booking.start and self.end < booking.end) or \
       (self.start > booking.start and self.start < booking.end):
        warnings.warn("The resource %s is overly booked with %s and %s" ...,
                      OverBookedWarning)
return resource
```

`booking` ranges over the resource's *existing* bookings, `self` is the *new*
booking.  `warnings.warn` never raises (it is an advisory), and the validator
returns the resource unconditionally, so the booking is always recorded.
-/

structure BookingIv where
  bstart : Int
  bend : Int
deriving DecidableEq

/-- The code's overlap test between one existing booking and the new one. -/
def overlapsB (existing nb : BookingIv) : Bool :=
  (existing.bstart = nb.bstart) || (existing.bend = nb.bend) ||
  (nb.bend > existing.bstart && nb.bend < existing.bend) ||
  (nb.bstart > existing.bstart && nb.bstart < existing.bend)

/-- The overlap condition exactly as claim C6 states it, with the existing
booking as `[s1,e1)` and the new one as `[s2,e2)`:
`s1 == s2, or e1 == e2, or s2 < e1 < e2, or s2 < s1 < e2`. -/
def overlapsClaim (existing nb : BookingIv) : Bool :=
  (existing.bstart = nb.bstart) || (existing.bend = nb.bend) ||
  (nb.bstart < existing.bend && existing.bend < nb.bend) ||
  (nb.bstart < existing.bstart && existing.bstart < nb.bend)

/-- Recording a booking: the warning list emitted by the validator's loop
(one entry per existing overlapping booking of the same resource) together
with the resource's booking list afterwards — the new booking is appended
unconditionally. -/
def recordBooking (existing : List BookingIv) (nb : BookingIv) :
    List BookingIv × List BookingIv :=
  (existing ++ [nb], existing.filter (fun b => overlapsB b nb))

/-- Claim C6 counterexample: an existing booking [2,5) strictly inside the
new booking [0,10) satisfies the claimed condition (`s2 < e1 < e2` with
s2=0, e1=5, e2=10), yet the code emits no warning — the code tests whether
the *new* interval's endpoints fall strictly inside the *existing* one, the
mirror image of the claimed relation.  The booking is still recorded. -/
theorem c6_counterexample :
    overlapsClaim ⟨2, 5⟩ ⟨0, 10⟩ = true ∧
    (recordBooking [⟨2, 5⟩] ⟨0, 10⟩).2 = [] ∧
    (recordBooking [⟨2, 5⟩] ⟨0, 10⟩).1 = [⟨2, 5⟩, ⟨0, 10⟩] := by
  refine ⟨by decide, by decide, by decide⟩

/-- Claim C6 (amended): when a Booking is recorded for a resource, an
OverBooked warning (not an exception) is emitted for each existing booking
[s1,e1) of that resource whose interval relates to the new interval [s2,e2)
by `s1 == s2`, or `e1 == e2`, or `s1 < e2 < e1`, or `s1 < s2 < e1` (the new
interval's endpoints on or strictly inside the existing span) — and in no
case does the warning prevent the booking from being recorded: the new
booking is appended to the resource's bookings whether or not an overlap was
found. -/
theorem c6_overbooked_warning (existing : List BookingIv) (nb b : BookingIv) :
    (recordBooking existing nb).1 = existing ++ [nb] ∧
    (b ∈ (recordBooking existing nb).2 ↔
      b ∈ existing ∧
        (b.bstart = nb.bstart ∨ b.bend = nb.bend ∨
          (b.bstart < nb.bend ∧ nb.bend < b.bend) ∨
          (b.bstart < nb.bstart ∧ nb.bstart < b.bend))) := by
  refine ⟨rfl, ?_⟩
  rw [recordBooking]
  simp only [List.mem_filter]
  constructor
  · rintro ⟨hm, hp⟩
    refine ⟨hm, ?_⟩
    simpa [overlapsB, Bool.or_eq_true, Bool.and_eq_true, decide_eq_true_eq,
      or_assoc] using hp
  · rintro ⟨hm, hp⟩
    refine ⟨hm, ?_⟩
    simpa [overlapsB, Bool.or_eq_true, Bool.and_eq_true, decide_eq_true_eq,
      or_assoc] using hp

/-! ## Milestone toggling (`Task._validate_is_milestone`, lines 583-590)

```python
@validates("is_milestone")
def _validate_is_milestone(self, key, is_milestone):
    if is_milestone:
        self.resources = []
    return bool(is_milestone)
```

The validator fires on *every* assignment to `is_milestone`, construction-time
or later.
-/

structure MilestoneTask where
  resources : List Nat
  is_milestone : Bool
deriving DecidableEq

/-- `task.is_milestone = m` routed through `_validate_is_milestone`. -/
def set_is_milestone (t : MilestoneTask) (m : Bool) : MilestoneTask :=
  if m then { resources := [], is_milestone := m }
  else { t with is_milestone := m }

/-- The `Task.__init__` fragment for milestones/resources (lines 445-459):
`self.is_milestone = is_milestone` runs first (on a task whose resources
collection is still empty), then `if self.is_milestone: resources = None`,
then `None` becomes `[]`, then `self.resources = resources`. -/
def initMilestone (resources : Option (List Nat)) (is_milestone : Bool) :
    MilestoneTask :=
  let t0 : MilestoneTask := { resources := [], is_milestone := false }
  let t1 := set_is_milestone t0 is_milestone
  let rs : Option (List Nat) := if t1.is_milestone then none else resources
  { t1 with
    resources :=
      match rs with
      | none => []
      | some l => l }

/-- A task constructed non-milestone with one resource. -/
def mileDemo : MilestoneTask := { resources := [7], is_milestone := false }

/-- Claim C7 counterexample: toggling `is_milestone` to true on an
already-constructed task with a resource strips the resources collection —
the validator clears it on every truthy assignment, not only at construction
time. -/
theorem c7_counterexample :
    mileDemo.resources = [7] ∧
    (set_is_milestone mileDemo true).resources = [] ∧
    (set_is_milestone mileDemo true).resources ≠ mileDemo.resources := by
  refine ⟨rfl, rfl, by decide⟩

/-- Claim C7 (amended): setting `is_milestone` to a truthy value clears the
task's resources collection at *any* time — at construction (where it also
suppresses the `resources` argument) and retroactively on any later toggle;
setting it to a falsy value leaves the resources unchanged. -/
theorem c7_milestone_always_strips (t : MilestoneTask) (r : Option (List Nat)) :
    (set_is_milestone t true).resources = [] ∧
    (set_is_milestone t true).is_milestone = true ∧
    (set_is_milestone t false).resources = t.resources ∧
    (set_is_milestone t false).is_milestone = false ∧
    (initMilestone r true).resources = [] ∧
    (initMilestone r false).resources = (match r with | none => [] | some l => l) := by
  refine ⟨rfl, rfl, rfl, rfl, rfl, rfl⟩

/-! ## Priority validation (`Task._validate_priority`, lines 667-684)

```python
try:
    priority = int(priority)
except (ValueError, TypeError):
    pass
if not isinstance(priority, int):
    priority = defaults.TASK_PRIORITY
if priority < 0: priority = 0
elif priority > 1000: priority = 1000
return priority
```

Inputs are modelled as Python values that are either an int, a string, or
`None` (`int(None)` raises TypeError; `int("abc")` raises ValueError; a
numeric string converts).
-/

inductive PyVal where
  | pint : Int → PyVal
  | pstr : String → PyVal
  | pnone : PyVal

/-- Decimal digits to a value; fails on a non-digit. -/
def decValueAux : List Char → Nat → Option Nat
  | [], acc => some acc
  | c :: rest, acc =>
    if c.isDigit then decValueAux rest (acc * 10 + (c.toNat - 48)) else none

/-- A non-empty all-digit character list to its value. -/
def decValue : List Char → Option Nat
  | [] => none
  | c :: rest => decValueAux (c :: rest) 0

/-- Python `int(str)`: an optional sign followed by one or more decimal
digits (whitespace trimming omitted from the model); anything else raises
ValueError, modelled as `none`. -/
def pyIntOfString (s : String) : Option Int :=
  match s.toList with
  | '-' :: rest => (decValue rest).map (fun n => -(n : Int))
  | '+' :: rest => (decValue rest).map (fun n => (n : Int))
  | l => (decValue l).map (fun n => (n : Int))

/-- Python `int(x)` on the modelled value space: ints pass through, strings
parse or raise, `None` raises. -/
def pyToInt : PyVal → Option Int
  | .pint n => some n
  | .pstr s => pyIntOfString s
  | .pnone => none

/-- Modelled from the spec: `defaults.TASK_PRIORITY` lives in `stalker.conf`,
which is not among the sources; the Task docstring fixes the default
priority at 500. -/
def TASK_PRIORITY : Int := 500

/-- The final clamping block of `_validate_priority`. -/
def clampPriority (n : Int) : Int :=
  if n < 0 then 0 else if n > 1000 then 1000 else n

/-- `Task._validate_priority`. -/
def validate_priority (p : PyVal) : Int :=
  match pyToInt p with
  | some n => clampPriority n
  | none => TASK_PRIORITY

theorem validate_priority_some {p : PyVal} {n : Int} (h : pyToInt p = some n) :
    validate_priority p = clampPriority n := by
  unfold validate_priority
  rw [h]

theorem validate_priority_toNone {p : PyVal} (h : pyToInt p = none) :
    validate_priority p = TASK_PRIORITY := by
  unfold validate_priority
  rw [h]

theorem clampPriority_bounds (n : Int) :
    0 ≤ clampPriority n ∧ clampPriority n ≤ 1000 := by
  unfold clampPriority
  split_ifs <;> omega

theorem clampPriority_eq_clamp (n : Int) :
    clampPriority n = max 0 (min 1000 n) := by
  unfold clampPriority
  split_ifs <;> omega

/-- Claim C9: writing any modelled value to `priority` never raises (the
validator is a total function): an integer-convertible value is converted
and clamped into [0, 1000] (so -5 is stored as 0, 5000 as 1000, and the
numeric string "12" as 12), and a non-convertible value such as "abc" or
`None` is replaced by the configured default priority. -/
theorem c9_priority_clamped (p : PyVal) :
    (0 ≤ validate_priority p ∧ validate_priority p ≤ 1000) ∧
    validate_priority p =
      (match pyToInt p with
       | some n => max 0 (min 1000 n)
       | none => TASK_PRIORITY) ∧
    validate_priority (.pint (-5)) = 0 ∧
    validate_priority (.pint 5000) = 1000 ∧
    validate_priority (.pstr "abc") = TASK_PRIORITY ∧
    validate_priority (.pstr "12") = 12 ∧
    validate_priority .pnone = TASK_PRIORITY := by
  refine ⟨?_, ?_, by decide, by decide, ?_, ?_, rfl⟩
  · cases hpy : pyToInt p with
    | none =>
      rw [validate_priority_toNone hpy]
      unfold TASK_PRIORITY
      omega
    | some n =>
      rw [validate_priority_some hpy]
      exact clampPriority_bounds n
  · cases hpy : pyToInt p with
    | none => rw [validate_priority_toNone hpy]
    | some n =>
      rw [validate_priority_some hpy]
      exact clampPriority_eq_clamp n
  · decide
  · decide

/-! ## Project resolution (`Task._validates_project`, lines 609-665)

The validator runs on `self._project = project` during `__init__`, after
`self.parent = parent` has been assigned.  `Except.error ()` models the
raised TypeError; a successful result carries the stored project id and
whether the ambiguity RuntimeWarning was emitted.
-/

structure ParentTask where
  project : Nat
deriving DecidableEq

/-- `Task._validates_project`: with no project, inherit the parent's or raise
TypeError for an orphan; with both a project and a parent, the parent's
project wins and a disagreement is reported as a warning, never an error. -/
def validates_project (parent : Option ParentTask) (project : Option Nat) :
    Except Unit (Nat × Bool) :=
  match project, parent with
  | none, some p => Except.ok (p.project, false)
  | none, none => Except.error ()
  | some q, some p =>
    if p.project ≠ q then Except.ok (p.project, true) else Except.ok (q, false)
  | some q, none => Except.ok (q, false)

/-- Claim C10 counterexample: constructing a task with an explicit project 2
and a parent whose project is 1 stores project 1 (plus a warning), not the
explicit argument — the stored project is *not* "taken from the explicit
project argument" when a disagreeing parent is present. -/
theorem c10_counterexample :
    validates_project (some ⟨1⟩) (some 2) = Except.ok (1, true) ∧ (1 : Nat) ≠ 2 := by
  exact ⟨rfl, by decide⟩

/-- Claim C10 (amended): constructing a Task with both project None and
parent None raises a TypeError, so every successfully constructed Task has a
non-null project — taken from `parent.project` whenever a parent is present
(overriding an explicit, disagreeing project argument with a non-fatal
warning), and from the explicit project argument only when there is no
parent. -/
theorem c10_project_resolution (parent : Option ParentTask)
    (project : Option Nat) (r : Nat × Bool)
    (h : validates_project parent project = Except.ok r) :
    (parent ≠ none ∨ project ≠ none) ∧
    (∀ p, parent = some p → r.1 = p.project) ∧
    (parent = none → project = some r.1) ∧
    validates_project none none = Except.error () := by
  refine ⟨?_, ?_, ?_, rfl⟩
  · cases parent with
    | some p => exact Or.inl (by simp)
    | none =>
      cases project with
      | some q => exact Or.inr (by simp)
      | none => exact absurd h (by simp [validates_project])
  · intro p hp
    subst hp
    cases project with
    | none =>
      simp only [validates_project] at h
      cases h; rfl
    | some q =>
      simp only [validates_project] at h
      by_cases hq : p.project ≠ q
      · rw [if_pos hq] at h; cases h; rfl
      · rw [if_neg hq] at h; cases h
        simpa using (not_ne_iff.mp hq).symm
  · intro hp
    subst hp
    cases project with
    | none => exact absurd h (by simp [validates_project])
    | some q =>
      simp only [validates_project] at h
      cases h; rfl

/-- Witness instantiating the amended C10 theorem on a parent-only task. -/
theorem c10_witness :
    ((some (⟨3⟩ : ParentTask) ≠ none ∨ (none : Option Nat) ≠ none) ∧
      (∀ p, some (⟨3⟩ : ParentTask) = some p → (3, false).1 = p.project) ∧
      (some (⟨3⟩ : ParentTask) = none → (none : Option Nat) = some (3, false).1) ∧
      validates_project none none = Except.error ()) :=
  c10_project_resolution (some ⟨3⟩) none (3, false) rfl

end Stalker
